import Mathlib

/-!
# diy-cdc: a logical-replication consumer

A shallow embedding of `diy-cdc.go`.  The program is one `main` function that
talks to a PostgreSQL server through library calls.  The embedding makes every
library call an entry of a trace (`Call`), and takes what the outside world
answers (errors, clock readings, received messages, the JSON decoder) from an
explicit environment (`Env`).  The endless `for` loop is run over a finite list
of per-iteration answers; the result says whether the loop is still running
after them or has stopped.
-/

namespace DiyCdc

/-! ## Data model -/

/-- One element of a Go byte slice. -/
abbrev Byte := Fin 256

/-- A reading of `time.Now()`, in nanoseconds on the monotonic clock. -/
abbrev Time := Int

/-- A `time.Duration`, in nanoseconds. -/
abbrev Duration := Int

/-- What `json.Unmarshal` stores in an `interface{}`; a JSON number becomes a
float64, kept here by its exact value. -/
inductive JSONValue where
  | null
  | bool (b : Bool)
  | number (q : ℚ)
  | string (s : String)
  | array (xs : List JSONValue)
  | object (kvs : List (String × JSONValue))

/-- The struct `Change` (lines 16-22). -/
structure Change where
  Kind : String
  Schema : String
  Table : String
  ColumnNames : List String
  ColumnValues : List JSONValue

/-- The struct `WAL2JSONPayload` (lines 24-26). -/
structure WAL2JSONPayload where
  Change : List Change

/-- The backend messages `ReceiveMessage` can return: `*pgproto3.CopyData`, or
any other message type, named by its type byte. -/
inductive BackendMessage where
  | CopyData (Data : List Byte)
  | Other (typeByte : Byte)

/-- The error of a failed `ReceiveMessage`: the bounded wait ran out, or the
session is dead.  The program never looks at which one it got. -/
inductive RecvError where
  | timeout
  | fatal (msg : String)

/-- Every call the program makes to the outside world, with the argument the
call is made with (for `Now`, the value the call returned). -/
inductive Call where
  | ParseConfig (connStr : String)
  | ConnectConfig
  | uuidNew
  | Exec (sql : String)
  | StartReplication (slotName : String) (startLSN : Nat) (pluginArgs : List String)
  | Println (s : String)
  | Now (t : Time)
  | SendStandbyStatusUpdate
  | ReceiveMessage
  | ParseXLogData (buf : List Byte)
  | Unmarshal (data : List Byte)
  | Printf (s : String)
  | Fatalf (s : String)
  | Close
  deriving DecidableEq, Repr

/-! ## Library functions the program calls -/

/-- The constant `time.Second`. -/
def Second : Duration := 1000000000

/-- The method `Time.Add`. -/
def Time.Add (t : Time) (d : Duration) : Time := t + d

/-- The method `Time.After`: strictly later. -/
def Time.After (t u : Time) : Bool := decide (u < t)

/-- The constant `pglogrepl.XLogDataByteID`, the byte of the letter w. -/
def XLogDataByteID : Byte := 119

/-- The struct `pglogrepl.XLogData`; the server time is kept as the raw
microsecond count of the header. -/
structure XLogData where
  WALStart : Nat
  ServerWALEnd : Nat
  ServerTime : Nat
  WALData : List Byte

/-- The function `binary.BigEndian.Uint64` on the first eight bytes. -/
def bigEndianUint64 (buf : List Byte) : Nat :=
  (buf.take 8).foldl (fun acc b => acc * 256 + b.val) 0

/-- The function `pglogrepl.ParseXLogData`: fewer than 24 bytes give the zero
value and an error; otherwise the three header words are read and the rest of
the buffer is the WAL data. -/
def ParseXLogData (buf : List Byte) : XLogData × Option String :=
  if buf.length < 24 then
    (⟨0, 0, 0, []⟩, some "XLogData must be at least 24 bytes")
  else
    (⟨bigEndianUint64 buf, bigEndianUint64 (buf.drop 8), bigEndianUint64 (buf.drop 16),
      buf.drop 24⟩, none)

/-- A 16-byte `uuid.UUID`. -/
structure UUID where
  bytes : List Byte
  size : bytes.length = 16

/-- The table `hextable` of `encoding/hex`. -/
def hextable : List Char := "0123456789abcdef".toList

/-- The function `hex.Encode`: two characters per byte, high half first. -/
def hexEncode : List Byte → List Char
  | [] => []
  | b :: bs => hextable.getD (b.val / 16) '0' :: hextable.getD (b.val % 16) '0' :: hexEncode bs

/-- The method `UUID.String`: the 8-4-4-4-12 form. -/
def UUID.String (u : UUID) : String :=
  String.mk (hexEncode (u.bytes.take 4) ++ ('-' :: (hexEncode ((u.bytes.drop 4).take 2)
    ++ ('-' :: (hexEncode ((u.bytes.drop 6).take 2)
    ++ ('-' :: (hexEncode ((u.bytes.drop 8).take 2)
    ++ ('-' :: hexEncode (u.bytes.drop 10)))))))))

/-- The Go slice expression `s[:n]` on a string of at least `n` one-byte
characters. -/
def sliceTo (s : String) (n : Nat) : String := String.mk (s.data.take n)

/-! ## The program -/

/-- The slot name of line 46. -/
def slotName (u : UUID) : String := "slot_" ++ sliceTo u.String 8

/-- The statement of lines 49-52. -/
def createSlotSQL (slot : String) : String :=
  "SELECT * FROM pg_create_logical_replication_slot('" ++ slot ++ "', 'wal2json')"

/-- The statement of line 56. -/
def dropSlotSQL (slot : String) : String :=
  "SELECT pg_drop_replication_slot('" ++ slot ++ "')"

/-- The constant `standbyMessageTimeout` of line 68. -/
def standbyMessageTimeout : Duration := Second * 10

/-- The line printed for one change (lines 91-92). -/
def changeLine (change : Change) : String :=
  "Change detected: " ++ change.Schema ++ "." ++ change.Table ++ " " ++ change.Kind ++ "\n"

/-- The `for _, change := range payload.Change` loop of lines 90-93. -/
def dispatch : List Change → List Call
  | [] => []
  | change :: rest => Call.Printf (changeLine change) :: dispatch rest

/-- How a loop body ends: it reaches the next iteration, or a run-time panic
unwinds `main`. -/
inductive Flow where
  | next
  | panic (msg : String)
  deriving DecidableEq, Repr

/-- The `switch` of lines 84-96 on a received message. -/
def handleMessage (unmarshal : List Byte → Except String WAL2JSONPayload) :
    BackendMessage → List Call × Flow
  | .Other _ => ([], .next)
  | .CopyData [] => ([], .panic "runtime error: index out of range [0] with length 0")
  | .CopyData (b :: rest) =>
    if b = XLogDataByteID then
      let xld := (ParseXLogData rest).1
      match unmarshal xld.WALData with
      | .ok payload =>
        (Call.ParseXLogData rest :: Call.Unmarshal xld.WALData :: dispatch payload.Change, .next)
      | .error _ => ([Call.ParseXLogData rest, Call.Unmarshal xld.WALData], .next)
    else ([], .next)

/-- The variable the loop carries from one iteration to the next. -/
structure LoopState where
  nextStatusDeadline : Time
  deriving DecidableEq, Repr

/-- What the outside world answers during one iteration: the clock at line 72,
the clock at line 74 (read only when the status update is sent), and the result
of `ReceiveMessage`. -/
structure IterInput where
  nowCheck : Time
  nowReset : Time
  recv : Except RecvError BackendMessage

/-- The keepalive check of lines 72-75. -/
def keepalive (st : LoopState) (inp : IterInput) : List Call × LoopState :=
  if Time.After inp.nowCheck st.nextStatusDeadline then
    ([Call.Now inp.nowCheck, Call.SendStandbyStatusUpdate, Call.Now inp.nowReset],
      ⟨Time.Add inp.nowReset standbyMessageTimeout⟩)
  else ([Call.Now inp.nowCheck], st)

/-- One pass through the loop body (lines 72-96). -/
def iteration (unmarshal : List Byte → Except String WAL2JSONPayload)
    (st : LoopState) (inp : IterInput) : List Call × LoopState × Flow :=
  let k := keepalive st inp
  match inp.recv with
  | .error _ => (k.1 ++ [Call.ReceiveMessage], k.2, .next)
  | .ok msg =>
    let h := handleMessage unmarshal msg
    (k.1 ++ Call.ReceiveMessage :: h.1, k.2, h.2)

/-- Where the loop stands after the supplied iterations. -/
inductive LoopEnd where
  | running (st : LoopState)
  | panicked (msg : String)
  deriving DecidableEq, Repr

/-- The `for` loop of lines 71-97 over a list of per-iteration answers.  The
loop has no `break` and no `return`: only a panic stops it. -/
def runLoop (unmarshal : List Byte → Except String WAL2JSONPayload) :
    LoopState → List IterInput → List Call × LoopEnd
  | st, [] => ([], .running st)
  | st, inp :: rest =>
    match iteration unmarshal st inp with
    | (calls, st', .next) =>
      let r := runLoop unmarshal st' rest
      (calls ++ r.1, r.2)
    | (calls, _, .panic msg) => (calls, .panicked msg)

/-- Everything `main` gets from the outside world. -/
structure Env where
  parseConfigErr : Option String
  connectErr : Option String
  uuid : UUID
  createSlotErr : Option String
  startReplicationErr : Option String
  t0 : Time
  unmarshal : List Byte → Except String WAL2JSONPayload
  iterations : List IterInput

/-- How a run of `main` stands after the supplied iterations: the process has
exited through `log.Fatalf` (which calls `os.Exit(1)` and runs no deferred
call), a panic has unwound `main` (running the deferred calls), or the loop is
still running. -/
inductive Outcome where
  | exit (code : Nat)
  | panicked (msg : String)
  | running (st : LoopState)
  deriving DecidableEq, Repr

/-- The connection string of line 29. -/
def connStr : String := "connection_string_here"

/-- The function `main` (lines 28-98).  The deferred calls are those registered
at lines 44 and 56; they run, last registered first, when a panic unwinds
`main`, and are skipped by `log.Fatalf`. -/
def main (env : Env) : List Call × Outcome :=
  match env.parseConfigErr with
  | some err =>
    ([Call.ParseConfig connStr, Call.Fatalf ("failed to parse config: " ++ err)], .exit 1)
  | none =>
  match env.connectErr with
  | some err =>
    ([Call.ParseConfig connStr, Call.ConnectConfig,
      Call.Fatalf ("failed to connect: " ++ err)], .exit 1)
  | none =>
  let slot := slotName env.uuid
  match env.createSlotErr with
  | some err =>
    ([Call.ParseConfig connStr, Call.ConnectConfig, Call.uuidNew,
      Call.Exec (createSlotSQL slot), Call.Fatalf ("failed to create slot: " ++ err)], .exit 1)
  | none =>
  let deferred := [Call.Exec (dropSlotSQL slot), Call.Close]
  let startup := [Call.ParseConfig connStr, Call.ConnectConfig, Call.uuidNew,
    Call.Exec (createSlotSQL slot), Call.StartReplication slot 0 ["pretty-print=0"]]
  match env.startReplicationErr with
  | some err =>
    (startup ++ [Call.Fatalf ("failed to start replication: " ++ err)], .exit 1)
  | none =>
  let st : LoopState := ⟨Time.Add env.t0 standbyMessageTimeout⟩
  let started := startup ++ [Call.Println "🚀 Started CDC stream", Call.Now env.t0]
  match runLoop env.unmarshal st env.iterations with
  | (calls, .running st') => (started ++ calls, .running st')
  | (calls, .panicked msg) => (started ++ calls ++ deferred, .panicked msg)

/-! ## Observers and the specification's event model -/

/-- The change event of the specification: kind, schema, table, and the
columns as (name, value) pairs in column order. -/
structure SpecChangeEvent where
  kind : String
  schema : String
  table : String
  columns : List (String × JSONValue)

/-- The events the specification expects from a decoded payload: one per
change entry, in order, with the column names paired with the column values. -/
def specEvents (payload : WAL2JSONPayload) : List SpecChangeEvent :=
  payload.Change.map fun c => ⟨c.Kind, c.Schema, c.Table, c.ColumnNames.zip c.ColumnValues⟩

/-- The status updates of a trace, each with the clock reading taken just
before it (line 72) and the one taken just after it (line 74). -/
def statusUpdates : List Call → List (Time × Time)
  | .Now a :: .SendStandbyStatusUpdate :: .Now b :: rest => (a, b) :: statusUpdates rest
  | _ :: rest => statusUpdates rest
  | [] => []

/-- The calls made while a message is handled (lines 84-96): the envelope
parse, the decoder, and the printing of an event. -/
def handlingCall : Call → Prop
  | .ParseXLogData _ => True
  | .Unmarshal _ => True
  | .Printf _ => True
  | _ => False

/-- The clock never runs backwards over the readings of the given iterations,
starting from the reading `t`. -/
def monotonicFrom : Time → List IterInput → Prop
  | _, [] => True
  | t, inp :: rest =>
    t ≤ inp.nowCheck ∧ inp.nowCheck ≤ inp.nowReset ∧ monotonicFrom inp.nowReset rest

/-- Each status update starts more than `interval` after the previous one was
over (for the first one: after the reading `t`). -/
def spacedFrom (interval : Duration) : Time → List (Time × Time) → Prop
  | _, [] => True
  | t, (a, b) :: ws => t + interval < a ∧ a ≤ b ∧ spacedFrom interval b ws

/-- The characters a slot name is made of: lower-case letters, digits and the
underscore. -/
def isSlotChar (c : Char) : Bool :=
  ('a' ≤ c && c ≤ 'z') || ('0' ≤ c && c ≤ '9') || c == '_'

/-! ## Sample inputs -/

/-- The payload text of the specification's scenario. -/
def scenarioText : String :=
  "\x7b\"change\":[\x7b\"kind\":\"insert\",\"schema\":\"public\",\"table\":\"users\"," ++
  "\"columnnames\":[\"id\",\"name\"],\"columnvalues\":[1,\"Ann\"]\x7d]\x7d"

/-- The bytes of a text of one-byte characters. -/
def bytesOf (s : String) : List Byte := s.toList.map fun c => Fin.ofNat c.toNat

/-- The payload the scenario text decodes to. -/
def scenarioPayload : WAL2JSONPayload :=
  ⟨[⟨"insert", "public", "users", ["id", "name"], [.number 1, .string "Ann"]⟩]⟩

/-- The scenario payload without its columns. -/
def scenarioNoColumns : WAL2JSONPayload :=
  ⟨[⟨"insert", "public", "users", [], []⟩]⟩

/-- A decoder that knows one document, the scenario text, and reports every
other input as an error; it stands for `json.Unmarshal` in the sample runs. -/
def scenarioUnmarshal (data : List Byte) : Except String WAL2JSONPayload :=
  if data = bytesOf scenarioText then .ok scenarioPayload
  else .error "invalid character"

/-- A 24-byte XLogData header of zeros. -/
def zeroHeader : List Byte := List.replicate 24 0

/-- A sample UUID. -/
def sampleUUID : UUID :=
  ⟨[0x1f, 0x9a, 0x03, 0xc4, 0x55, 0x66, 0x47, 0x88, 0x99, 0xaa, 0xbb, 0xcc, 0xdd, 0xee, 0xff, 0x00],
    rfl⟩

/-- A run in which slot creation succeeds and `StartReplication` fails. -/
def envStartFails : Env :=
  { parseConfigErr := none, connectErr := none, uuid := sampleUUID, createSlotErr := none,
    startReplicationErr := some "replication slot does not exist",
    t0 := 0, unmarshal := scenarioUnmarshal, iterations := [] }

/-- A run whose first received message is a CopyData with no data, followed by
the scenario payload. -/
def envEmptyCopyData : Env :=
  { parseConfigErr := none, connectErr := none, uuid := sampleUUID, createSlotErr := none,
    startReplicationErr := none, t0 := 0, unmarshal := scenarioUnmarshal,
    iterations := [⟨Second, Second, .ok (.CopyData [])⟩,
      ⟨2 * Second, 2 * Second,
        .ok (.CopyData (XLogDataByteID :: zeroHeader ++ bytesOf scenarioText))⟩] }

/-- A run in which `ReceiveMessage` first reports a closed connection and is
then called again. -/
def envConnectionClosed : Env :=
  { parseConfigErr := none, connectErr := none, uuid := sampleUUID, createSlotErr := none,
    startReplicationErr := none, t0 := 0, unmarshal := scenarioUnmarshal,
    iterations := [⟨Second, Second, .error (.fatal "conn closed")⟩,
      ⟨2 * Second, 2 * Second, .error (.fatal "conn closed")⟩] }

/-- The keepalive scenario: the deadline is armed at time 0, two receive
waits of five seconds time out, and the third iteration starts at exactly
ten seconds and receives the scenario payload. -/
def boundaryIterations : List IterInput :=
  [⟨0, 0, .error .timeout⟩, ⟨5 * Second, 5 * Second, .error .timeout⟩,
    ⟨10 * Second, 10 * Second,
      .ok (.CopyData (XLogDataByteID :: zeroHeader ++ bytesOf scenarioText))⟩]

/-- Iterations in which two status updates are due: at 11 and at 22 seconds. -/
def twoUpdateIterations : List IterInput :=
  [⟨5 * Second, 5 * Second, .error .timeout⟩,
    ⟨11 * Second, 11 * Second + 1, .error .timeout⟩,
    ⟨16 * Second, 16 * Second, .ok (.Other 107)⟩,
    ⟨22 * Second, 22 * Second, .error .timeout⟩]

/-! ## Lemmas: hex encoding and the slot name -/

lemma hexEncode_length (bs : List Byte) : (hexEncode bs).length = 2 * bs.length := by
  induction bs with
  | nil => rfl
  | cons b bs ih => simp [hexEncode, ih]; omega

lemma hexDigit_mem (n : Fin 16) : hextable.getD n.val '0' ∈ hextable := by
  revert n; decide

lemma hexDigit_injective (m n : Fin 16)
    (h : hextable.getD m.val '0' = hextable.getD n.val '0') : m = n := by
  revert m n; decide

lemma hexEncode_mem (bs : List Byte) : ∀ c ∈ hexEncode bs, c ∈ hextable := by
  induction bs with
  | nil => simp [hexEncode]
  | cons b bs ih =>
    intro c hc
    simp only [hexEncode, List.mem_cons] at hc
    rcases hc with rfl | rfl | hc
    · exact hexDigit_mem ⟨b.val / 16, by omega⟩
    · exact hexDigit_mem ⟨b.val % 16, by omega⟩
    · exact ih c hc

lemma hexEncode_injective : ∀ bs cs : List Byte, hexEncode bs = hexEncode cs → bs = cs
  | [], [], _ => rfl
  | [], _ :: _, h => by simp [hexEncode] at h
  | _ :: _, [], h => by simp [hexEncode] at h
  | b :: bs, c :: cs, h => by
    simp only [hexEncode, List.cons.injEq] at h
    obtain ⟨h1, h2, h3⟩ := h
    have e1 := hexDigit_injective ⟨b.val / 16, by omega⟩ ⟨c.val / 16, by omega⟩ h1
    have e2 := hexDigit_injective ⟨b.val % 16, by omega⟩ ⟨c.val % 16, by omega⟩ h2
    simp only [Fin.mk.injEq] at e1 e2
    have hbc : b = c := by apply Fin.ext; omega
    rw [hbc, hexEncode_injective bs cs h3]

lemma hextable_isSlotChar : ∀ c ∈ hextable, isSlotChar c = true := by decide

lemma hextable_no_hyphen : '-' ∉ hextable := by decide

lemma sliceTo_String (u : UUID) :
    sliceTo u.String 8 = String.mk (hexEncode (u.bytes.take 4)) := by
  unfold sliceTo UUID.String
  congr 1
  apply List.take_left'
  rw [hexEncode_length, List.length_take, u.size]
  rfl

/-- The canonical form always has 36 characters, so the slice `[:8]` of line 46
is within bounds. -/
lemma String_length (u : UUID) : u.String.length = 36 := by
  unfold UUID.String
  simp [String.length, hexEncode_length, List.length_take, List.length_drop, u.size]

lemma slotName_eq (u : UUID) :
    slotName u = "slot_" ++ String.mk (hexEncode (u.bytes.take 4)) := by
  unfold slotName; rw [sliceTo_String]

lemma slotName_data (u : UUID) :
    (slotName u).data = "slot_".data ++ hexEncode (u.bytes.take 4) := by
  rw [slotName_eq, String.data_append]

lemma createSlotSQL_ne_dropSlotSQL (a b : String) : createSlotSQL a ≠ dropSlotSQL b := by
  intro h
  have hd := congrArg (fun s : String => s.data.take 8) h
  simp [createSlotSQL, dropSlotSQL, String.data_append] at hd

/-! ## Lemmas: the receive loop -/

lemma dispatch_eq_map (changes : List Change) :
    dispatch changes = changes.map fun c => Call.Printf (changeLine c) := by
  induction changes with
  | nil => rfl
  | cons c rest ih => simp [dispatch, ih]

lemma statusUpdates_cons_of_handlingCall (c : Call) (rest : List Call) (h : handlingCall c) :
    statusUpdates (c :: rest) = statusUpdates rest := by
  cases c <;> first | exact False.elim h | simp [statusUpdates]

lemma statusUpdates_append_of_handlingCall (cs rest : List Call)
    (h : ∀ c ∈ cs, handlingCall c) : statusUpdates (cs ++ rest) = statusUpdates rest := by
  induction cs with
  | nil => rfl
  | cons c cs ih =>
    rw [List.cons_append,
      statusUpdates_cons_of_handlingCall c _ (h c (List.mem_cons_self _ _))]
    exact ih fun d hd => h d (List.mem_cons_of_mem _ hd)

lemma count_send_of_handlingCall (cs : List Call) (h : ∀ c ∈ cs, handlingCall c) :
    cs.count Call.SendStandbyStatusUpdate = 0 :=
  List.count_eq_zero.mpr fun hmem => h _ hmem

lemma dispatch_handlingCall (changes : List Change) :
    ∀ c ∈ dispatch changes, handlingCall c := by
  induction changes with
  | nil => simp [dispatch]
  | cons ch rest ih =>
    intro c hc
    simp only [dispatch, List.mem_cons] at hc
    rcases hc with rfl | hc
    · trivial
    · exact ih c hc

lemma handleMessage_handlingCall (unmarshal : List Byte → Except String WAL2JSONPayload)
    (msg : BackendMessage) : ∀ c ∈ (handleMessage unmarshal msg).1, handlingCall c := by
  intro c hc
  match msg with
  | .Other _ => simp [handleMessage] at hc
  | .CopyData [] => simp [handleMessage] at hc
  | .CopyData (b :: rest) =>
    simp only [handleMessage] at hc
    split at hc
    · split at hc
      · simp only [List.mem_cons] at hc
        rcases hc with rfl | rfl | hc
        · trivial
        · trivial
        · exact dispatch_handlingCall _ c hc
      · simp only [List.mem_cons, List.mem_singleton, List.not_mem_nil, or_false] at hc
        rcases hc with rfl | rfl <;> trivial
    · simp at hc

/-- Only an empty CopyData makes the message handling panic. -/
lemma handleMessage_next_of_nonempty (unmarshal : List Byte → Except String WAL2JSONPayload)
    (b : Byte) (rest : List Byte) :
    (handleMessage unmarshal (.CopyData (b :: rest))).2 = Flow.next := by
  simp only [handleMessage]
  split
  · split <;> rfl
  · rfl

/-- Every iteration starts with the keepalive check and then calls
`ReceiveMessage`; what follows are calls of the message handling only, and the
state the iteration leaves is the one the keepalive check left. -/
lemma iteration_shape (unmarshal : List Byte → Except String WAL2JSONPayload)
    (st : LoopState) (inp : IterInput) :
    ∃ h : List Call, (∀ c ∈ h, handlingCall c) ∧
      (iteration unmarshal st inp).1 = (keepalive st inp).1 ++ Call.ReceiveMessage :: h ∧
      (iteration unmarshal st inp).2.1 = (keepalive st inp).2 := by
  unfold iteration
  cases inp.recv with
  | error e => exact ⟨[], by simp, rfl, rfl⟩
  | ok msg =>
    exact ⟨(handleMessage unmarshal msg).1, handleMessage_handlingCall unmarshal msg, rfl, rfl⟩

lemma keepalive_eq (st : LoopState) (inp : IterInput) :
    keepalive st inp =
      if st.nextStatusDeadline < inp.nowCheck then
        ([Call.Now inp.nowCheck, Call.SendStandbyStatusUpdate, Call.Now inp.nowReset],
          ⟨inp.nowReset + 10000000000⟩)
      else ([Call.Now inp.nowCheck], st) := by
  unfold keepalive Time.After Time.Add standbyMessageTimeout Second
  by_cases hlt : st.nextStatusDeadline < inp.nowCheck <;> simp [hlt]

lemma keepalive_state (st : LoopState) (inp : IterInput) :
    (keepalive st inp).2.nextStatusDeadline =
      if st.nextStatusDeadline < inp.nowCheck then inp.nowReset + standbyMessageTimeout
      else st.nextStatusDeadline := by
  unfold keepalive Time.After Time.Add
  by_cases hlt : st.nextStatusDeadline < inp.nowCheck <;> simp [hlt]

lemma keepalive_deadline (st : LoopState) (inp : IterInput) :
    (keepalive st inp).2.nextStatusDeadline =
      if st.nextStatusDeadline < inp.nowCheck then inp.nowReset + 10000000000
      else st.nextStatusDeadline := by
  rw [keepalive_eq]
  by_cases hlt : st.nextStatusDeadline < inp.nowCheck <;> simp [hlt]

lemma statusUpdates_keepalive (st : LoopState) (inp : IterInput) (h r : List Call)
    (hh : ∀ c ∈ h, handlingCall c) :
    statusUpdates ((keepalive st inp).1 ++ Call.ReceiveMessage :: (h ++ r)) =
      (if st.nextStatusDeadline < inp.nowCheck then [(inp.nowCheck, inp.nowReset)] else [])
        ++ statusUpdates r := by
  unfold keepalive Time.After
  by_cases hlt : st.nextStatusDeadline < inp.nowCheck
  · simp [hlt, statusUpdates, statusUpdates_append_of_handlingCall h r hh]
  · simp [hlt, statusUpdates, statusUpdates_append_of_handlingCall h r hh]

lemma count_send_keepalive (st : LoopState) (inp : IterInput) (h r : List Call)
    (hh : ∀ c ∈ h, handlingCall c) :
    ((keepalive st inp).1 ++ Call.ReceiveMessage :: (h ++ r)).count
        Call.SendStandbyStatusUpdate =
      (if st.nextStatusDeadline < inp.nowCheck then 1 else 0) +
        r.count Call.SendStandbyStatusUpdate := by
  rw [keepalive_eq]
  by_cases hlt : st.nextStatusDeadline < inp.nowCheck
  · simp [hlt, List.count_cons, count_send_of_handlingCall h hh]
    omega
  · simp [hlt, List.count_cons, count_send_of_handlingCall h hh]

/-- When an iteration ends normally the loop goes on with the next one. -/
lemma runLoop_cons_next (unmarshal : List Byte → Except String WAL2JSONPayload)
    (st st' : LoopState) (inp : IterInput) (rest : List IterInput) (calls : List Call)
    (h : iteration unmarshal st inp = (calls, st', Flow.next)) :
    runLoop unmarshal st (inp :: rest) =
      (calls ++ (runLoop unmarshal st' rest).1, (runLoop unmarshal st' rest).2) := by
  rw [runLoop, h]

/-- The trace of a run: the keepalive check, the receive, the handling calls,
and then nothing more (after a panic) or the trace of the remaining run. -/
lemma runLoop_trace (unmarshal : List Byte → Except String WAL2JSONPayload)
    (st : LoopState) (inp : IterInput) (rest : List IterInput) :
    ∃ h r : List Call, (∀ c ∈ h, handlingCall c) ∧
      (r = [] ∨ r = (runLoop unmarshal (keepalive st inp).2 rest).1) ∧
      (runLoop unmarshal st (inp :: rest)).1 =
        (keepalive st inp).1 ++ Call.ReceiveMessage :: (h ++ r) := by
  obtain ⟨h, hh, hcalls, hst⟩ := iteration_shape unmarshal st inp
  rw [runLoop]
  rcases hit : iteration unmarshal st inp with ⟨calls, st', flow⟩
  rw [hit] at hcalls hst
  simp only at hcalls hst
  subst hcalls hst
  cases flow with
  | next => exact ⟨h, _, hh, Or.inr rfl, by simp⟩
  | panic msg => exact ⟨h, [], hh, Or.inl rfl, by simp⟩

lemma spacedFrom_runLoop (unmarshal : List Byte → Except String WAL2JSONPayload) :
    ∀ (inputs : List IterInput) (st : LoopState) (l c : Time),
      st.nextStatusDeadline = l + standbyMessageTimeout → l ≤ c → monotonicFrom c inputs →
      spacedFrom standbyMessageTimeout l (statusUpdates (runLoop unmarshal st inputs).1)
  | [], st, l, c, _, _, _ => by simp [runLoop, statusUpdates, spacedFrom]
  | inp :: rest, st, l, c, hd, hlc, hm => by
    obtain ⟨h1, h2, h3⟩ := hm
    obtain ⟨h, r, hh, hr, heq⟩ := runLoop_trace unmarshal st inp rest
    rw [heq, statusUpdates_keepalive st inp h r hh]
    have hks := keepalive_state st inp
    by_cases hlt : st.nextStatusDeadline < inp.nowCheck
    · rw [if_pos hlt] at hks ⊢
      refine ⟨by rw [← hd]; exact hlt, h2, ?_⟩
      rcases hr with rfl | rfl
      · simp [statusUpdates, spacedFrom]
      · exact spacedFrom_runLoop unmarshal rest _ inp.nowReset inp.nowReset hks le_rfl h3
    · rw [if_neg hlt] at hks ⊢
      rcases hr with rfl | rfl
      · simp [statusUpdates, spacedFrom]
      · exact spacedFrom_runLoop unmarshal rest _ l inp.nowReset (hks.trans hd)
          (le_trans hlc (le_trans h1 h2)) h3

/-- The observer `statusUpdates` misses no status update of a run. -/
lemma statusUpdates_length_runLoop (unmarshal : List Byte → Except String WAL2JSONPayload) :
    ∀ (inputs : List IterInput) (st : LoopState),
      (statusUpdates (runLoop unmarshal st inputs).1).length =
        (runLoop unmarshal st inputs).1.count Call.SendStandbyStatusUpdate
  | [], st => by simp [runLoop, statusUpdates]
  | inp :: rest, st => by
    obtain ⟨h, r, hh, hr, heq⟩ := runLoop_trace unmarshal st inp rest
    rw [heq, statusUpdates_keepalive st inp h r hh, count_send_keepalive st inp h r hh,
      List.length_append]
    have hrest : (statusUpdates r).length = r.count Call.SendStandbyStatusUpdate := by
      rcases hr with rfl | rfl
      · simp [statusUpdates]
      · exact statusUpdates_length_runLoop unmarshal rest _
    rw [hrest]
    by_cases hlt : st.nextStatusDeadline < inp.nowCheck <;> simp [hlt]

/-! ## The slot name (line 46) -/

/-- Claim C9: for every UUID the slot name is the text slot_ followed by the
hex encoding of the first four bytes, which is what the first eight characters
of the canonical form are; these eight characters are lower-case hex digits
and none is a hyphen; the name has 13 characters, all of them lower-case
letters, digits or underscores; and two UUIDs give the same name exactly when
their first four bytes agree. -/
theorem slotName_is_slot_and_hex_of_first_four_bytes (u v : UUID) :
    slotName u = "slot_" ++ String.mk (hexEncode (u.bytes.take 4)) ∧
    sliceTo u.String 8 = String.mk (hexEncode (u.bytes.take 4)) ∧
    (u.bytes.take 4).length = 4 ∧
    (hexEncode (u.bytes.take 4)).length = 8 ∧
    (∀ c ∈ hexEncode (u.bytes.take 4), c ∈ "0123456789abcdef".toList) ∧
    '-' ∉ (sliceTo u.String 8).data ∧
    (slotName u).length = 13 ∧
    (∀ c ∈ (slotName u).data, isSlotChar c = true) ∧
    (slotName u = slotName v ↔ u.bytes.take 4 = v.bytes.take 4) := by
  have hlen4 : (u.bytes.take 4).length = 4 := by rw [List.length_take, u.size]; rfl
  refine ⟨slotName_eq u, sliceTo_String u, hlen4, ?_, hexEncode_mem _, ?_, ?_, ?_, ?_⟩
  · rw [hexEncode_length, hlen4]
  · rw [sliceTo_String]
    exact fun hmem => hextable_no_hyphen (hexEncode_mem _ _ hmem)
  · rw [String.length, slotName_data, List.length_append, hexEncode_length, hlen4]
    rfl
  · intro c hc
    rw [slotName_data, List.mem_append] at hc
    rcases hc with hc | hc
    · revert c; decide
    · exact hextable_isSlotChar c (hexEncode_mem _ c hc)
  · constructor
    · intro h
      have hdata := congrArg String.data h
      rw [slotName_data, slotName_data] at hdata
      exact hexEncode_injective _ _ (List.append_cancel_left hdata)
    · intro h
      rw [slotName_eq, slotName_eq, h]

/-! ## Start-up and shutdown (lines 28-69) -/

/-- Claim C8: when `StartReplication` returns an error, `main` ends at once
through `log.Fatalf`: the trace stops at the fatal message, the clock is never
read, no status update is sent, `ReceiveMessage` is never called, and no
drop-slot statement is issued. -/
theorem main_exits_when_StartReplication_fails (env : Env) (err : String)
    (hparse : env.parseConfigErr = none) (hconn : env.connectErr = none)
    (hcreate : env.createSlotErr = none) (hstart : env.startReplicationErr = some err) :
    main env =
      ([Call.ParseConfig connStr, Call.ConnectConfig, Call.uuidNew,
        Call.Exec (createSlotSQL (slotName env.uuid)),
        Call.StartReplication (slotName env.uuid) 0 ["pretty-print=0"],
        Call.Fatalf ("failed to start replication: " ++ err)], Outcome.exit 1) ∧
    (∀ t, Call.Now t ∉ (main env).1) ∧
    Call.SendStandbyStatusUpdate ∉ (main env).1 ∧
    Call.ReceiveMessage ∉ (main env).1 ∧
    (∀ slot, Call.Exec (dropSlotSQL slot) ∉ (main env).1) := by
  have hmain : main env =
      ([Call.ParseConfig connStr, Call.ConnectConfig, Call.uuidNew,
        Call.Exec (createSlotSQL (slotName env.uuid)),
        Call.StartReplication (slotName env.uuid) 0 ["pretty-print=0"],
        Call.Fatalf ("failed to start replication: " ++ err)], Outcome.exit 1) := by
    simp [main, hparse, hconn, hcreate, hstart]
  refine ⟨hmain, ?_, ?_, ?_, ?_⟩
  · intro t; rw [hmain]; simp
  · rw [hmain]; simp
  · rw [hmain]; simp
  · intro slot; rw [hmain]
    simp only [List.mem_cons, Call.Exec.injEq, List.not_mem_nil, or_false, reduceCtorEq,
      false_or]
    exact fun h => createSlotSQL_ne_dropSlotSQL _ _ h.symm

/-- The run `envStartFails` satisfies the premises of claim C8, and its trace
holds no call to `ReceiveMessage`. -/
theorem main_exits_when_StartReplication_fails_witness :
    envStartFails.parseConfigErr = none ∧ envStartFails.connectErr = none ∧
    envStartFails.createSlotErr = none ∧
    envStartFails.startReplicationErr = some "replication slot does not exist" ∧
    Call.ReceiveMessage ∉ (main envStartFails).1 :=
  ⟨rfl, rfl, rfl, rfl,
    (main_exits_when_StartReplication_fails envStartFails "replication slot does not exist"
      rfl rfl rfl rfl).2.2.2.1⟩

/-- Claim C3, the code at the failing input: slot creation succeeds,
`StartReplication` fails, and the process exits through `log.Fatalf` without
the deferred drop of line 56 ever running: no drop-slot statement is in the
trace. -/
theorem main_skips_deferred_drop_on_Fatalf :
    main envStartFails =
      ([Call.ParseConfig "connection_string_here", Call.ConnectConfig, Call.uuidNew,
        Call.Exec "SELECT * FROM pg_create_logical_replication_slot('slot_1f9a03c4', 'wal2json')",
        Call.StartReplication "slot_1f9a03c4" 0 ["pretty-print=0"],
        Call.Fatalf "failed to start replication: replication slot does not exist"],
        Outcome.exit 1) ∧
    Call.Exec (dropSlotSQL (slotName envStartFails.uuid)) ∉ (main envStartFails).1 := by
  constructor
  · rfl
  · decide

/-- Claim C2, the code at the failing input: a CopyData with no data makes
the read of `m.Data[0]` panic, for every decoder; in the run
`envEmptyCopyData` the panic unwinds `main` (the deferred drop and close run),
and the message that was to come next is never received. -/
theorem main_panics_on_empty_CopyData :
    (∀ unmarshal, handleMessage unmarshal (.CopyData []) =
      ([], Flow.panic "runtime error: index out of range [0] with length 0")) ∧
    main envEmptyCopyData =
      ([Call.ParseConfig "connection_string_here", Call.ConnectConfig, Call.uuidNew,
        Call.Exec "SELECT * FROM pg_create_logical_replication_slot('slot_1f9a03c4', 'wal2json')",
        Call.StartReplication "slot_1f9a03c4" 0 ["pretty-print=0"],
        Call.Println "🚀 Started CDC stream", Call.Now 0,
        Call.Now 1000000000, Call.ReceiveMessage,
        Call.Exec "SELECT pg_drop_replication_slot('slot_1f9a03c4')", Call.Close],
        Outcome.panicked "runtime error: index out of range [0] with length 0") := by
  constructor
  · intro unmarshal; rfl
  · rfl

/-! ## The keepalive check (lines 68-75) -/

/-- Claim C5, counterexample: with the deadline at ten seconds and the clock
at exactly ten seconds the check sends nothing and keeps the deadline; and in
the scenario run (deadline armed at 0, two five-second timeouts, third
iteration at exactly ten seconds) no status update is sent before the message
of the third iteration is received and handled. -/
theorem keepalive_sends_nothing_at_the_deadline :
    keepalive ⟨10 * Second⟩ ⟨10 * Second, 10 * Second, .error .timeout⟩ =
      ([Call.Now (10 * Second)], ⟨10 * Second⟩) ∧
    Call.SendStandbyStatusUpdate ∉
      (runLoop scenarioUnmarshal ⟨Time.Add 0 standbyMessageTimeout⟩ boundaryIterations).1 ∧
    Call.Printf "Change detected: public.users insert\n" ∈
      (runLoop scenarioUnmarshal ⟨Time.Add 0 standbyMessageTimeout⟩ boundaryIterations).1 := by
  set_option maxRecDepth 100000 in
  refine ⟨by rfl, by decide, by decide⟩

/-- Claim C5, amended: every iteration starts with the keepalive check,
before the receive; the check sends a status update exactly when the clock
reading is strictly after the deadline; it then sends exactly one and sets the
deadline to a fresh clock reading plus ten seconds; otherwise (the reading is
at or before the deadline) it sends nothing and leaves the deadline as it
was. -/
theorem keepalive_sends_iff_strictly_after_deadline
    (unmarshal : List Byte → Except String WAL2JSONPayload) (st : LoopState) (inp : IterInput) :
    (∃ h : List Call, (∀ c ∈ h, handlingCall c) ∧
      (iteration unmarshal st inp).1 = (keepalive st inp).1 ++ Call.ReceiveMessage :: h ∧
      (iteration unmarshal st inp).2.1 = (keepalive st inp).2) ∧
    (Call.SendStandbyStatusUpdate ∈ (keepalive st inp).1 ↔
      st.nextStatusDeadline < inp.nowCheck) ∧
    keepalive st inp =
      (if st.nextStatusDeadline < inp.nowCheck then
        ([Call.Now inp.nowCheck, Call.SendStandbyStatusUpdate, Call.Now inp.nowReset],
          ⟨inp.nowReset + 10000000000⟩)
      else ([Call.Now inp.nowCheck], st)) ∧
    (keepalive st inp).1.count Call.SendStandbyStatusUpdate =
      (if st.nextStatusDeadline < inp.nowCheck then 1 else 0) := by
  refine ⟨iteration_shape unmarshal st inp, ?_, keepalive_eq st inp, ?_⟩
  · rw [keepalive_eq]
    by_cases hlt : st.nextStatusDeadline < inp.nowCheck <;> simp [hlt]
  · rw [keepalive_eq]
    by_cases hlt : st.nextStatusDeadline < inp.nowCheck <;> simp [hlt]

/-- Claim C6: under a clock that never runs backwards, in every run of the
loop whose deadline was armed at the reading `t0`, the first status update
starts more than ten seconds after `t0`, and every later one starts more than
ten seconds after the one before it was over; the status updates counted are
all those of the trace. -/
theorem statusUpdates_more_than_interval_apart
    (unmarshal : List Byte → Except String WAL2JSONPayload) (t0 : Time)
    (inputs : List IterInput) (hclock : monotonicFrom t0 inputs) :
    standbyMessageTimeout = 10000000000 ∧
    (statusUpdates (runLoop unmarshal ⟨Time.Add t0 standbyMessageTimeout⟩ inputs).1).length =
      (runLoop unmarshal ⟨Time.Add t0 standbyMessageTimeout⟩ inputs).1.count
        Call.SendStandbyStatusUpdate ∧
    spacedFrom standbyMessageTimeout t0
      (statusUpdates (runLoop unmarshal ⟨Time.Add t0 standbyMessageTimeout⟩ inputs).1) :=
  ⟨rfl, statusUpdates_length_runLoop unmarshal inputs _,
    spacedFrom_runLoop unmarshal inputs _ t0 t0 rfl le_rfl hclock⟩

/-- The run over `twoUpdateIterations` has a clock that never runs backwards;
it sends two status updates, and they are spaced as claim C6 says. -/
theorem statusUpdates_more_than_interval_apart_witness :
    monotonicFrom 0 twoUpdateIterations ∧
    statusUpdates (runLoop scenarioUnmarshal ⟨Time.Add 0 standbyMessageTimeout⟩
      twoUpdateIterations).1 = [(11000000000, 11000000001), (22000000000, 22000000000)] ∧
    spacedFrom standbyMessageTimeout 0
      (statusUpdates (runLoop scenarioUnmarshal ⟨Time.Add 0 standbyMessageTimeout⟩
        twoUpdateIterations).1) :=
  ⟨by simp [monotonicFrom, twoUpdateIterations, Second], by rfl,
    (statusUpdates_more_than_interval_apart scenarioUnmarshal 0 twoUpdateIterations
      (by simp [monotonicFrom, twoUpdateIterations, Second])).2.2⟩

/-! ## Receiving (lines 77-82) -/

/-- Claim C4, counterexample: in the run `envConnectionClosed` the first
`ReceiveMessage` reports a closed connection, yet the loop goes on:
`ReceiveMessage` is called again, no drop-slot statement and no close are
issued, and the loop is still running. -/
theorem main_keeps_looping_after_closed_connection :
    main envConnectionClosed =
      ([Call.ParseConfig "connection_string_here", Call.ConnectConfig, Call.uuidNew,
        Call.Exec "SELECT * FROM pg_create_logical_replication_slot('slot_1f9a03c4', 'wal2json')",
        Call.StartReplication "slot_1f9a03c4" 0 ["pretty-print=0"],
        Call.Println "🚀 Started CDC stream", Call.Now 0,
        Call.Now 1000000000, Call.ReceiveMessage,
        Call.Now 2000000000, Call.ReceiveMessage],
        Outcome.running ⟨10000000000⟩) := by
  rfl

/-- Claim C4, amended: when `ReceiveMessage` returns an error, of whatever
kind, the iteration ends right there (nothing is handled, nothing is printed,
the state is the one the keepalive check left), and the loop goes on with the
next iteration. -/
theorem runLoop_continues_after_receive_error
    (unmarshal : List Byte → Except String WAL2JSONPayload) (st : LoopState)
    (inp : IterInput) (rest : List IterInput) (e : RecvError) (hrecv : inp.recv = .error e) :
    iteration unmarshal st inp =
      ((keepalive st inp).1 ++ [Call.ReceiveMessage], (keepalive st inp).2, Flow.next) ∧
    runLoop unmarshal st (inp :: rest) =
      (((keepalive st inp).1 ++ [Call.ReceiveMessage]) ++
        (runLoop unmarshal (keepalive st inp).2 rest).1,
        (runLoop unmarshal (keepalive st inp).2 rest).2) := by
  have hit : iteration unmarshal st inp =
      ((keepalive st inp).1 ++ [Call.ReceiveMessage], (keepalive st inp).2, Flow.next) := by
    simp only [iteration, hrecv]
  exact ⟨hit, runLoop_cons_next unmarshal st _ inp rest _ hit⟩

/-- A closed connection in the first of two iterations: the loop goes on to
the second. -/
theorem runLoop_continues_after_receive_error_witness :
    (⟨Second, Second, .error (.fatal "conn closed")⟩ : IterInput).recv =
      .error (.fatal "conn closed") ∧
    runLoop scenarioUnmarshal ⟨10 * Second⟩
      [⟨Second, Second, .error (.fatal "conn closed")⟩, ⟨2 * Second, 2 * Second, .error .timeout⟩]
      = ([Call.Now Second, Call.ReceiveMessage, Call.Now (2 * Second), Call.ReceiveMessage],
          LoopEnd.running ⟨10 * Second⟩) :=
  ⟨rfl, (runLoop_continues_after_receive_error scenarioUnmarshal ⟨10 * Second⟩
    ⟨Second, Second, .error (.fatal "conn closed")⟩ [⟨2 * Second, 2 * Second, .error .timeout⟩]
    (.fatal "conn closed") rfl).2.trans (by rfl)⟩

/-! ## Handling a message (lines 84-96) -/

/-- Claim C1, counterexample: the event emitted for the scenario payload is
the one line naming schema, table and kind; the same payload without its
columns emits the very same event, although the specification's events of the
two payloads differ; so no reading of the emitted events gives back the
specification's events with their columns. -/
theorem dispatch_emits_no_columns :
    dispatch scenarioPayload.Change = [Call.Printf "Change detected: public.users insert\n"] ∧
    dispatch scenarioNoColumns.Change = dispatch scenarioPayload.Change ∧
    specEvents scenarioNoColumns ≠ specEvents scenarioPayload ∧
    ¬ ∃ read : Call → SpecChangeEvent,
        ∀ p : WAL2JSONPayload, (dispatch p.Change).map read = specEvents p := by
  have hne : specEvents scenarioNoColumns ≠ specEvents scenarioPayload := by
    simp [specEvents, scenarioNoColumns, scenarioPayload]
  refine ⟨rfl, rfl, hne, ?_⟩
  rintro ⟨read, hread⟩
  apply hne
  rw [← hread scenarioNoColumns, ← hread scenarioPayload]
  rfl

/-- Claim C1, amended: for every decoder, when the WAL data of an XLogData
message decodes to a payload with N change entries, the handling of the
message parses the envelope, decodes, and then emits exactly N events in the
order of the entries, the i-th being the line made of the schema, the table
and the kind of the i-th entry (the columns are not part of it); it does not
stop the loop; with no entry it emits no event. -/
theorem handleMessage_emits_one_line_per_change
    (unmarshal : List Byte → Except String WAL2JSONPayload) (rest : List Byte)
    (payload : WAL2JSONPayload)
    (hdecoded : unmarshal (ParseXLogData rest).1.WALData = .ok payload) :
    handleMessage unmarshal (.CopyData (XLogDataByteID :: rest)) =
      (Call.ParseXLogData rest :: Call.Unmarshal (ParseXLogData rest).1.WALData ::
        dispatch payload.Change, Flow.next) ∧
    (dispatch payload.Change).length = payload.Change.length ∧
    (∀ i : Nat, (dispatch payload.Change)[i]? = payload.Change[i]?.map fun c =>
      Call.Printf ("Change detected: " ++ c.Schema ++ "." ++ c.Table ++ " " ++ c.Kind ++ "\n")) ∧
    (dispatch payload.Change = [] ↔ payload.Change = []) := by
  refine ⟨?_, ?_, ?_, ?_⟩
  · simp only [handleMessage, if_true, hdecoded]
  · rw [dispatch_eq_map, List.length_map]
  · intro i
    rw [dispatch_eq_map, List.getElem?_map]
    rfl
  · rw [dispatch_eq_map, List.map_eq_nil_iff]

/-- The scenario of the specification: the scenario text, behind a header of
24 bytes, decodes to the scenario payload and one event is emitted, the line
for the insert into public.users. -/
theorem handleMessage_emits_one_line_per_change_witness :
    scenarioUnmarshal (ParseXLogData (zeroHeader ++ bytesOf scenarioText)).1.WALData =
      .ok scenarioPayload ∧
    handleMessage scenarioUnmarshal
        (.CopyData (XLogDataByteID :: (zeroHeader ++ bytesOf scenarioText))) =
      (Call.ParseXLogData (zeroHeader ++ bytesOf scenarioText) ::
        Call.Unmarshal (ParseXLogData (zeroHeader ++ bytesOf scenarioText)).1.WALData ::
        [Call.Printf "Change detected: public.users insert\n"], Flow.next) := by
  set_option maxRecDepth 100000 in
  exact ⟨by rfl, (handleMessage_emits_one_line_per_change scenarioUnmarshal
    (zeroHeader ++ bytesOf scenarioText) scenarioPayload (by rfl)).1⟩

/-- Claim C7: when the WAL data of an XLogData message does not decode, the
iteration emits no event: after the keepalive check and the receive it only
parses the envelope and calls the decoder; it ends normally; the handling
does not touch the deadline, which stays as the keepalive check at the top of
the iteration left it (the old deadline unless a status update was due); and
the loop goes on with the next iteration. -/
theorem iteration_skips_undecodable_payload
    (unmarshal : List Byte → Except String WAL2JSONPayload) (st : LoopState)
    (inp : IterInput) (rest : List IterInput) (data : List Byte) (e : String)
    (hrecv : inp.recv = .ok (.CopyData (XLogDataByteID :: data)))
    (hdecode : unmarshal (ParseXLogData data).1.WALData = .error e) :
    handleMessage unmarshal (.CopyData (XLogDataByteID :: data)) =
      ([Call.ParseXLogData data, Call.Unmarshal (ParseXLogData data).1.WALData], Flow.next) ∧
    iteration unmarshal st inp =
      ((keepalive st inp).1 ++ [Call.ReceiveMessage, Call.ParseXLogData data,
        Call.Unmarshal (ParseXLogData data).1.WALData], (keepalive st inp).2, Flow.next) ∧
    (∀ line, Call.Printf line ∉ (iteration unmarshal st inp).1) ∧
    (iteration unmarshal st inp).2.1.nextStatusDeadline =
      (if st.nextStatusDeadline < inp.nowCheck then inp.nowReset + 10000000000
        else st.nextStatusDeadline) ∧
    runLoop unmarshal st (inp :: rest) =
      (((keepalive st inp).1 ++ [Call.ReceiveMessage, Call.ParseXLogData data,
        Call.Unmarshal (ParseXLogData data).1.WALData]) ++
        (runLoop unmarshal (keepalive st inp).2 rest).1,
        (runLoop unmarshal (keepalive st inp).2 rest).2) := by
  have hh : handleMessage unmarshal (.CopyData (XLogDataByteID :: data)) =
      ([Call.ParseXLogData data, Call.Unmarshal (ParseXLogData data).1.WALData], Flow.next) := by
    simp only [handleMessage, if_true, hdecode]
  have hit : iteration unmarshal st inp =
      ((keepalive st inp).1 ++ [Call.ReceiveMessage, Call.ParseXLogData data,
        Call.Unmarshal (ParseXLogData data).1.WALData], (keepalive st inp).2, Flow.next) := by
    simp only [iteration, hrecv, hh]
  refine ⟨hh, hit, ?_, ?_, runLoop_cons_next unmarshal st _ inp rest _ hit⟩
  · intro line
    rw [hit, keepalive_eq]
    by_cases hlt : st.nextStatusDeadline < inp.nowCheck <;> simp [hlt]
  · rw [hit]; exact keepalive_deadline st inp

/-- An XLogData message whose data is too short to hold the header: the
decoder gets no bytes and fails, and the iteration emits nothing. -/
theorem iteration_skips_undecodable_payload_witness :
    (⟨Second, Second, .ok (.CopyData [XLogDataByteID, 1, 2, 3])⟩ : IterInput).recv =
      .ok (.CopyData (XLogDataByteID :: [1, 2, 3])) ∧
    scenarioUnmarshal (ParseXLogData [1, 2, 3]).1.WALData = .error "invalid character" ∧
    iteration scenarioUnmarshal ⟨10 * Second⟩
        ⟨Second, Second, .ok (.CopyData [XLogDataByteID, 1, 2, 3])⟩ =
      ([Call.Now Second, Call.ReceiveMessage, Call.ParseXLogData [1, 2, 3], Call.Unmarshal []],
        ⟨10 * Second⟩, Flow.next) :=
  ⟨rfl, by rfl, (iteration_skips_undecodable_payload scenarioUnmarshal ⟨10 * Second⟩
    ⟨Second, Second, .ok (.CopyData [XLogDataByteID, 1, 2, 3])⟩ [] [1, 2, 3]
    "invalid character" rfl (by rfl)).2.1.trans (by rfl)⟩

/-- Claim C10: a received message that is not a CopyData, or a CopyData whose
first byte is not the XLogData marker, is ignored: its handling makes no call
at all (no event, no envelope parse, no decoder call) and ends normally; the
iteration is the keepalive check and the receive; the deadline stays as the
keepalive check left it (the old deadline unless a status update was due); and
the loop goes on with the next iteration. -/
theorem iteration_ignores_other_messages
    (unmarshal : List Byte → Except String WAL2JSONPayload) (st : LoopState)
    (inp : IterInput) (rest : List IterInput) (msg : BackendMessage)
    (hrecv : inp.recv = .ok msg)
    (hother : (∃ t, msg = .Other t) ∨
      (∃ b data, msg = .CopyData (b :: data) ∧ b ≠ XLogDataByteID)) :
    handleMessage unmarshal msg = ([], Flow.next) ∧
    iteration unmarshal st inp =
      ((keepalive st inp).1 ++ [Call.ReceiveMessage], (keepalive st inp).2, Flow.next) ∧
    (iteration unmarshal st inp).2.1.nextStatusDeadline =
      (if st.nextStatusDeadline < inp.nowCheck then inp.nowReset + 10000000000
        else st.nextStatusDeadline) ∧
    runLoop unmarshal st (inp :: rest) =
      (((keepalive st inp).1 ++ [Call.ReceiveMessage]) ++
        (runLoop unmarshal (keepalive st inp).2 rest).1,
        (runLoop unmarshal (keepalive st inp).2 rest).2) := by
  have hh : handleMessage unmarshal msg = ([], Flow.next) := by
    rcases hother with ⟨t, rfl⟩ | ⟨b, data, rfl, hb⟩
    · rfl
    · simp only [handleMessage, if_neg hb]
  have hit : iteration unmarshal st inp =
      ((keepalive st inp).1 ++ [Call.ReceiveMessage], (keepalive st inp).2, Flow.next) := by
    simp only [iteration, hrecv, hh]
  exact ⟨hh, hit, by rw [hit]; exact keepalive_deadline st inp,
    runLoop_cons_next unmarshal st _ inp rest _ hit⟩

/-- A primary keepalive message (a CopyData whose first byte is the letter k)
is ignored. -/
theorem iteration_ignores_other_messages_witness :
    (⟨Second, Second, .ok (.CopyData [107, 0, 0])⟩ : IterInput).recv =
      .ok (.CopyData [107, 0, 0]) ∧
    ((∃ t, BackendMessage.CopyData [107, 0, 0] = .Other t) ∨
      (∃ b data, BackendMessage.CopyData [107, 0, 0] = .CopyData (b :: data) ∧
        b ≠ XLogDataByteID)) ∧
    handleMessage scenarioUnmarshal (.CopyData [107, 0, 0]) = ([], Flow.next) :=
  ⟨rfl, Or.inr ⟨107, [0, 0], rfl, by decide⟩,
    (iteration_ignores_other_messages scenarioUnmarshal ⟨10 * Second⟩
      ⟨Second, Second, .ok (.CopyData [107, 0, 0])⟩ [] (.CopyData [107, 0, 0]) rfl
      (Or.inr ⟨107, [0, 0], rfl, by decide⟩)).1⟩

end DiyCdc
